import Mathlib

/-!
Shallow embedding of `lifeash/src/core.rs` (hasherlife): the `Position`,
`Quadrant`, `Offset` and `Level` types and their arithmetic.

Machine integers are modelled over `Int`/`Nat` with the Rust checked
semantics made explicit: an `i64`/`u8`/`u64` operation whose result leaves
the type's range fails (returns `none`), matching Rust's overflow checks and
the explicit `panic!`/`unwrap` calls in the source.
-/

namespace HasherLife

/-- Rust `i64` lower bound. -/
def i64Min : Int := -(2 ^ 63)

/-- Rust `i64` upper bound. -/
def i64Max : Int := 2 ^ 63 - 1

/-- Checked `i64` result: fails when the mathematical value leaves the range. -/
def i64chk (z : Int) : Option Int :=
  if i64Min ≤ z ∧ z ≤ i64Max then some z else none

/-- Checked `i64` addition. -/
def i64add (a b : Int) : Option Int := i64chk (a + b)

/-- Checked `i64` subtraction. -/
def i64sub (a b : Int) : Option Int := i64chk (a - b)

/-- Checked `i64` negation (fails only at `i64::MIN`). -/
def i64neg (a : Int) : Option Int := i64chk (-a)

/-- Checked `u8` addition. -/
def u8add (a b : Nat) : Option Nat :=
  if a + b ≤ 255 then some (a + b) else none

/-- Checked `u8` subtraction (fails on underflow). -/
def u8sub (a b : Nat) : Option Nat :=
  if b ≤ a then some (a - b) else none

/-- Reinterpret the low 64 bits of a natural number as a signed `i64`
(two's complement), as Rust's `1i64 << s` does for `s < 64`. -/
def toI64 (n : Nat) : Int :=
  if n % 2 ^ 64 < 2 ^ 63 then ((n % 2 ^ 64 : Nat) : Int)
  else ((n % 2 ^ 64 : Nat) : Int) - 2 ^ 64

/-- `1i64 << s`: fails when the shift amount reaches the bit width. -/
def i64shl1 (s : Nat) : Option Int :=
  if s < 64 then some (toI64 (1 <<< s)) else none

/-- `1u64 << s`: fails when the shift amount reaches the bit width. -/
def u64shl1 (s : Nat) : Option Nat :=
  if s < 64 then some ((1 <<< s) % 2 ^ 64) else none

/-- `i64::try_from(u64).unwrap()`: fails when the value exceeds `i64::MAX`. -/
def u64toI64 (n : Nat) : Option Int :=
  if (n : Int) ≤ i64Max then some (n : Int) else none

/-- `Position` from `core.rs`: a signed 2D integer coordinate pair. -/
structure Position where
  x : Int
  y : Int
deriving DecidableEq, Repr

/-- `Quadrant` from `core.rs`. -/
inductive Quadrant where
  | NorthWest
  | NorthEast
  | SouthWest
  | SouthEast
deriving DecidableEq, Repr

/-- `Offset` from `core.rs`: a signed 2D integer delta. -/
structure Offset where
  dx : Int
  dy : Int
deriving DecidableEq, Repr

/-- `Offset::new`. -/
def Offset.new (dx dy : Int) : Offset := ⟨dx, dy⟩

/-- `Position::new`. -/
def Position.new (x y : Int) : Position := ⟨x, y⟩

/-- `Position::ORIGIN`. -/
def Position.ORIGIN : Position := ⟨0, 0⟩

/-- `Position::quadrant`: the source matches on `(self.x < 0, self.y < 0)`,
mapping `(true, true)` to `NorthWest`, `(false, true)` to `NorthEast`,
`(true, false)` to `SouthWest`, `(false, false)` to `SouthEast`. -/
def Position.quadrant (p : Position) : Quadrant :=
  if p.x < 0 then
    if p.y < 0 then Quadrant.NorthWest else Quadrant.SouthWest
  else
    if p.y < 0 then Quadrant.NorthEast else Quadrant.SouthEast

/-- `impl Add for Offset`: the source computes
`Offset::new(self.dx + other.dy, self.dy + other.dy)` (note `other.dy`
in the first component). -/
def Offset.add (a b : Offset) : Option Offset := do
  let dx ← i64add a.dx b.dy
  let dy ← i64add a.dy b.dy
  pure ⟨dx, dy⟩

/-- `impl AddAssign for Offset`: per-axis `self.dx += other.dx; self.dy += other.dy`. -/
def Offset.addAssign (a b : Offset) : Option Offset := do
  let dx ← i64add a.dx b.dx
  let dy ← i64add a.dy b.dy
  pure ⟨dx, dy⟩

/-- `impl Sub for Offset`: the source computes
`Offset::new(self.dx - other.dy, self.dy - other.dy)` (note `other.dy`
in the first component). -/
def Offset.sub (a b : Offset) : Option Offset := do
  let dx ← i64sub a.dx b.dy
  let dy ← i64sub a.dy b.dy
  pure ⟨dx, dy⟩

/-- `impl SubAssign for Offset`: per-axis `self.dx -= other.dx; self.dy -= other.dy`. -/
def Offset.subAssign (a b : Offset) : Option Offset := do
  let dx ← i64sub a.dx b.dx
  let dy ← i64sub a.dy b.dy
  pure ⟨dx, dy⟩

/-- `impl Add<Offset> for Position`: per-axis addition. -/
def Position.addOffset (p : Position) (o : Offset) : Option Position := do
  let x ← i64add p.x o.dx
  let y ← i64add p.y o.dy
  pure ⟨x, y⟩

/-- `impl Sub<Offset> for Position`: per-axis subtraction. -/
def Position.subOffset (p : Position) (o : Offset) : Option Position := do
  let x ← i64sub p.x o.dx
  let y ← i64sub p.y o.dy
  pure ⟨x, y⟩

/-- `Position::relative_to`: `self + Offset::new(-other.x, -other.y)`. -/
def Position.relative_to (p other : Position) : Option Position := do
  let nx ← i64neg other.x
  let ny ← i64neg other.y
  p.addOffset ⟨nx, ny⟩

/-- `Level::MAX_LEVEL`. -/
def MAX_LEVEL : Nat := 63

/-- `Level::LEAF_LEVEL`. -/
def LEAF_LEVEL : Nat := 0

namespace Level

/-- `Level::check_validity`: panics when the level exceeds `MAX_LEVEL`. -/
def check_validity (l : Nat) : Option Unit :=
  if l > MAX_LEVEL then none else some ()

/-- `impl Add for Level`: `Level(self.0 + other.0)` (checked `u8` add)
followed by `check_validity`. -/
def add (a b : Nat) : Option Nat := do
  let s ← u8add a b
  check_validity s
  pure s

/-- `impl AddAssign for Level`: `self.0 += other.0` (checked `u8` add)
followed by `check_validity`. -/
def addAssign (a b : Nat) : Option Nat := do
  let s ← u8add a b
  check_validity s
  pure s

/-- `impl Sub for Level`: `Level(self.0 - other.0)` (checked `u8`
subtraction); no validity check in the source. -/
def sub (a b : Nat) : Option Nat := u8sub a b

/-- `impl SubAssign for Level`: `self.0 -= other.0` (checked `u8`
subtraction); no validity check in the source. -/
def subAssign (a b : Nat) : Option Nat := u8sub a b

/-- `Level::side_len`: `1u64 << self.0`. -/
def side_len (l : Nat) : Option Nat := u64shl1 l

/-- `Level::quadrant_center`: `delta = i64::try_from(self.side_len() / 4).unwrap()`,
then the signed combination `(±delta, ±delta)` per quadrant (north is negative
`y`, west is negative `x`). `delta` lies in `[0, i64::MAX]` so the negations
cannot overflow. -/
def quadrant_center (l : Nat) (q : Quadrant) : Option Position := do
  let sl ← side_len l
  let delta ← u64toI64 (sl / 4)
  pure (match q with
    | Quadrant.NorthWest => ⟨-delta, -delta⟩
    | Quadrant.NorthEast => ⟨delta, -delta⟩
    | Quadrant.SouthWest => ⟨-delta, delta⟩
    | Quadrant.SouthEast => ⟨delta, delta⟩)

/-- `Level::min_coord`: `-(1 << (self.0 - 1))` with checked `u8` subtraction
in the shift amount and checked `i64` negation. -/
def min_coord (l : Nat) : Option Int := do
  let s ← u8sub l 1
  let v ← i64shl1 s
  i64neg v

/-- `Level::max_coord`: `(1 << (self.0 - 1)) - 1` with checked `u8`
subtraction in the shift amount and checked `i64` subtraction. -/
def max_coord (l : Nat) : Option Int := do
  let s ← u8sub l 1
  let v ← i64shl1 s
  i64sub v 1

/-- `Level::coord_range`: the half-open Rust range
`self.min_coord()..self.max_coord()`, kept as a `(start, end)` pair. -/
def coord_range (l : Nat) : Option (Int × Int) := do
  let lo ← min_coord l
  let hi ← max_coord l
  pure (lo, hi)

/-- `Level::max_steps`: `1u64 << (self.0 - 2)` with checked `u8` subtraction
in the shift amount (underflows for levels below 2, matching the
`debug_assert!(self.0 >= 2)`). -/
def max_steps (l : Nat) : Option Nat := do
  let s ← u8sub l 2
  u64shl1 s

end Level

/-- `std::ops::Range::contains` on `i64`: `start ≤ x ∧ x < end`. -/
def rangeContains (r : Int × Int) (z : Int) : Bool :=
  decide (r.1 ≤ z) && decide (z < r.2)

/-- `Position::in_bounds`: `bounds.contains(&self.x) && bounds.contains(&self.y)`
for `bounds = level.coord_range()`. -/
def Position.in_bounds (p : Position) (l : Nat) : Option Bool := do
  let r ← Level.coord_range l
  pure (rangeContains r p.x && rangeContains r p.y)

end HasherLife

namespace HasherLife

/-! ## Helper lemmas -/

/-- Characterization of a checked `i64` result. -/
lemma i64chk_eq_some {z w : Int} :
    i64chk z = some w ↔ w = z ∧ i64Min ≤ z ∧ z ≤ i64Max := by
  unfold i64chk
  split_ifs with h
  · simp only [Option.some.injEq]
    exact ⟨fun hw => ⟨hw.symm, h⟩, fun hw => hw.1.symm⟩
  · exact ⟨fun hw => by simp at hw, fun hw => (h ⟨hw.2.1, hw.2.2⟩).elim⟩

/-- `Level` addition succeeds exactly on sums up to 63 and returns the sum. -/
lemma level_add_eq (a b : Nat) :
    Level.add a b = if 63 < a + b then none else some (a + b) := by
  by_cases h1 : a + b ≤ 255 <;> by_cases h2 : 63 < a + b <;>
    simp [Level.add, u8add, Level.check_validity, MAX_LEVEL, h1, h2, gt_iff_lt] <;> omega

/-- `Level` subtraction succeeds exactly when no underflow occurs. -/
lemma level_sub_eq (a b : Nat) :
    Level.sub a b = if b ≤ a then some (a - b) else none := by
  simp only [Level.sub, u8sub]

/-- Closed form of `quadrant_center` on valid levels at least 2. -/
lemma quadrant_center_eq (l : Nat) (h2 : 2 ≤ l) (h63 : l ≤ 63) (q : Quadrant) :
    Level.quadrant_center l q = some (match q with
      | Quadrant.NorthWest => ⟨-(2 ^ (l - 2) : Int), -(2 ^ (l - 2) : Int)⟩
      | Quadrant.NorthEast => ⟨(2 ^ (l - 2) : Int), -(2 ^ (l - 2) : Int)⟩
      | Quadrant.SouthWest => ⟨-(2 ^ (l - 2) : Int), (2 ^ (l - 2) : Int)⟩
      | Quadrant.SouthEast => ⟨(2 ^ (l - 2) : Int), (2 ^ (l - 2) : Int)⟩) := by
  interval_cases l <;> cases q <;> decide

/-- Characterization of `Position` plus `Offset`. -/
lemma addOffset_eq_some {p : Position} {o : Offset} {r : Position} :
    Position.addOffset p o = some r ↔
      r = ⟨p.x + o.dx, p.y + o.dy⟩ ∧
      i64Min ≤ p.x + o.dx ∧ p.x + o.dx ≤ i64Max ∧
      i64Min ≤ p.y + o.dy ∧ p.y + o.dy ≤ i64Max := by
  simp only [Position.addOffset, bind, Option.bind_eq_some, i64add, i64chk_eq_some,
    pure, Option.some.injEq]
  constructor
  · rintro ⟨x, ⟨hx, hx1, hx2⟩, y, ⟨hy, hy1, hy2⟩, hr⟩
    subst hx; subst hy; subst hr
    exact ⟨rfl, hx1, hx2, hy1, hy2⟩
  · rintro ⟨hr, hx1, hx2, hy1, hy2⟩
    exact ⟨_, ⟨rfl, hx1, hx2⟩, _, ⟨rfl, hy1, hy2⟩, hr.symm⟩

/-- Characterization of `Position` minus `Offset`. -/
lemma subOffset_eq_some {p : Position} {o : Offset} {r : Position} :
    Position.subOffset p o = some r ↔
      r = ⟨p.x - o.dx, p.y - o.dy⟩ ∧
      i64Min ≤ p.x - o.dx ∧ p.x - o.dx ≤ i64Max ∧
      i64Min ≤ p.y - o.dy ∧ p.y - o.dy ≤ i64Max := by
  simp only [Position.subOffset, bind, Option.bind_eq_some, i64sub, i64chk_eq_some,
    pure, Option.some.injEq]
  constructor
  · rintro ⟨x, ⟨hx, hx1, hx2⟩, y, ⟨hy, hy1, hy2⟩, hr⟩
    subst hx; subst hy; subst hr
    exact ⟨rfl, hx1, hx2, hy1, hy2⟩
  · rintro ⟨hr, hx1, hx2, hy1, hy2⟩
    exact ⟨_, ⟨rfl, hx1, hx2⟩, _, ⟨rfl, hy1, hy2⟩, hr.symm⟩

/-! ## Claim theorems -/

/-- Claim C1 (refuted on the code, evaluated at the failing inputs):
`coord_range` is the half-open Rust range `min_coord..max_coord`, so
`in_bounds` rejects any position with a coordinate equal to `max_coord`.
At level 1 the bounds are `min_coord = -1`, `max_coord = 0`, yet the origin
`(0, 0)` — whose coordinates equal `max_coord(1)` — is reported out of
bounds; likewise `(1, 1) = (max_coord(2), max_coord(2))`, which is the very
position `quadrant_center(2, SouthEast)` returns, is out of bounds at
level 2. The claim says the range is inclusive of `max_coord`. -/
theorem c1_max_coord_excluded_from_bounds :
    Level.min_coord 1 = some (-1) ∧ Level.max_coord 1 = some 0 ∧
    Position.in_bounds ⟨0, 0⟩ 1 = some false ∧
    Level.max_coord 2 = some 1 ∧ Position.in_bounds ⟨1, 1⟩ 2 = some false ∧
    Level.quadrant_center 2 Quadrant.SouthEast = some ⟨1, 1⟩ := by decide

/-- Claim C2 (refuted on the code, evaluated at the failing input):
`Offset`'s `Add` and `Sub` use `other.dy` in the `dx` component, so
`(0,0) + (1,0) = (0,0)` instead of the claimed `(1,0)`, and
`(0,0) - (1,0) = (0,0)` instead of the claimed `(-1,0)`; the `AddAssign`
and `SubAssign` implementations of the same operations are per-axis and
disagree with `Add`/`Sub` at this input. -/
theorem c2_offset_add_sub_use_dy_for_dx :
    Offset.add ⟨0, 0⟩ ⟨1, 0⟩ = some ⟨0, 0⟩ ∧
    Offset.sub ⟨0, 0⟩ ⟨1, 0⟩ = some ⟨0, 0⟩ ∧
    Offset.addAssign ⟨0, 0⟩ ⟨1, 0⟩ = some ⟨1, 0⟩ ∧
    Offset.subAssign ⟨0, 0⟩ ⟨1, 0⟩ = some ⟨-1, 0⟩ := by decide

/-- Claim C3: for valid operand levels (at most `MAX_LEVEL` = 63), level
addition (and `AddAssign`) fails exactly when the sum exceeds 63, level
subtraction (and `SubAssign`) fails exactly when the subtrahend exceeds the
minuend (the checked `u8` subtraction underflows), and every result an
operation does produce lies in `[0, 63]`. -/
theorem c3_level_arith_rejects_out_of_range (a b : Nat)
    (ha : a ≤ MAX_LEVEL) (hb : b ≤ MAX_LEVEL) :
    (Level.add a b = none ↔ MAX_LEVEL < a + b) ∧
    (Level.addAssign a b = none ↔ MAX_LEVEL < a + b) ∧
    (Level.sub a b = none ↔ a < b) ∧
    (Level.subAssign a b = none ↔ a < b) ∧
    (∀ r, Level.add a b = some r → r ≤ MAX_LEVEL) ∧
    (∀ r, Level.sub a b = some r → r ≤ MAX_LEVEL) := by
  have hA : Level.addAssign a b = Level.add a b := rfl
  have hS : Level.subAssign a b = Level.sub a b := rfl
  rw [MAX_LEVEL] at *
  rw [hA, hS, level_add_eq, level_sub_eq]
  split_ifs <;> simp_all <;> omega

/-- Witness for claim C3 at the concrete operands 32 and 32. -/
theorem c3_level_arith_rejects_out_of_range_witness :
    ((32 : Nat) ≤ MAX_LEVEL ∧ (32 : Nat) ≤ MAX_LEVEL) ∧
    ((Level.add 32 32 = none ↔ MAX_LEVEL < 32 + 32) ∧
     (Level.addAssign 32 32 = none ↔ MAX_LEVEL < 32 + 32) ∧
     (Level.sub 32 32 = none ↔ 32 < 32) ∧
     (Level.subAssign 32 32 = none ↔ 32 < 32) ∧
     (∀ r, Level.add 32 32 = some r → r ≤ MAX_LEVEL) ∧
     (∀ r, Level.sub 32 32 = some r → r ≤ MAX_LEVEL)) :=
  ⟨⟨by decide, by decide⟩,
   c3_level_arith_rejects_out_of_range 32 32 (by decide) (by decide)⟩

/-- Claim C4: for every level `2 ≤ L ≤ 63`, `max_steps L = 2^(L-2)`; in
particular `max_steps 2 = 1`, and for `3 ≤ L ≤ 63` the doubling
relationship `max_steps L = 2 * max_steps (L-1)` holds. -/
theorem c4_max_steps_pow_and_doubling (l : Nat) (h2 : 2 ≤ l) (h63 : l ≤ MAX_LEVEL) :
    Level.max_steps l = some (2 ^ (l - 2)) ∧
    Level.max_steps 2 = some 1 ∧
    (3 ≤ l → Level.max_steps (l - 1) = some (2 ^ (l - 1 - 2)) ∧
      Level.max_steps l = some (2 * 2 ^ (l - 1 - 2))) := by
  rw [MAX_LEVEL] at h63
  interval_cases l <;> refine ⟨by decide, by decide, fun h3 => ?_⟩ <;>
    first
    | exact absurd h3 (by decide)
    | exact ⟨by decide, by decide⟩

/-- Witness for claim C4 at the concrete level 5. -/
theorem c4_max_steps_pow_and_doubling_witness :
    (2 ≤ 5 ∧ (5 : Nat) ≤ MAX_LEVEL) ∧
    (Level.max_steps 5 = some (2 ^ (5 - 2)) ∧
     Level.max_steps 2 = some 1 ∧
     (3 ≤ 5 → Level.max_steps (5 - 1) = some (2 ^ (5 - 1 - 2)) ∧
       Level.max_steps 5 = some (2 * 2 ^ (5 - 1 - 2)))) :=
  ⟨⟨by decide, by decide⟩, c4_max_steps_pow_and_doubling 5 (by decide) (by decide)⟩

/-- Claim C5: for every valid level `2 ≤ L ≤ 63` and every quadrant, the
quadrant center has magnitude `side_len(L)/4 = 2^(L-2)` in each axis, with
negative `x` for the west quadrants, negative `y` for the north quadrants,
and positive components otherwise. -/
theorem c5_quadrant_center_magnitude_and_signs (l : Nat)
    (h2 : 2 ≤ l) (h63 : l ≤ MAX_LEVEL) :
    Level.side_len l = some (2 ^ l) ∧ 2 ^ l / 4 = 2 ^ (l - 2) ∧
    Level.quadrant_center l Quadrant.NorthWest =
      some ⟨-(2 ^ (l - 2) : Int), -(2 ^ (l - 2) : Int)⟩ ∧
    Level.quadrant_center l Quadrant.NorthEast =
      some ⟨(2 ^ (l - 2) : Int), -(2 ^ (l - 2) : Int)⟩ ∧
    Level.quadrant_center l Quadrant.SouthWest =
      some ⟨-(2 ^ (l - 2) : Int), (2 ^ (l - 2) : Int)⟩ ∧
    Level.quadrant_center l Quadrant.SouthEast =
      some ⟨(2 ^ (l - 2) : Int), (2 ^ (l - 2) : Int)⟩ := by
  rw [MAX_LEVEL] at h63
  refine ⟨?_, ?_, quadrant_center_eq l h2 h63 _, quadrant_center_eq l h2 h63 _,
    quadrant_center_eq l h2 h63 _, quadrant_center_eq l h2 h63 _⟩ <;>
    interval_cases l <;> decide

/-- Witness for claim C5 at the concrete level 2. -/
theorem c5_quadrant_center_magnitude_and_signs_witness :
    (2 ≤ 2 ∧ (2 : Nat) ≤ MAX_LEVEL) ∧
    (Level.side_len 2 = some (2 ^ 2) ∧ 2 ^ 2 / 4 = 2 ^ (2 - 2) ∧
     Level.quadrant_center 2 Quadrant.NorthWest =
       some ⟨-(2 ^ (2 - 2) : Int), -(2 ^ (2 - 2) : Int)⟩ ∧
     Level.quadrant_center 2 Quadrant.NorthEast =
       some ⟨(2 ^ (2 - 2) : Int), -(2 ^ (2 - 2) : Int)⟩ ∧
     Level.quadrant_center 2 Quadrant.SouthWest =
       some ⟨-(2 ^ (2 - 2) : Int), (2 ^ (2 - 2) : Int)⟩ ∧
     Level.quadrant_center 2 Quadrant.SouthEast =
       some ⟨(2 ^ (2 - 2) : Int), (2 ^ (2 - 2) : Int)⟩) :=
  ⟨⟨by decide, by decide⟩,
   c5_quadrant_center_magnitude_and_signs 2 (by decide) (by decide)⟩

/-- Claim C6: for a position `p` whose coordinates are in `i64` range,
adding an offset and subtracting it again returns `p` (whenever the
addition succeeds), and `relative_to` computes the per-axis difference,
which composes with adding back `Offset::new(q.x, q.y)` to recover `p`. -/
theorem c6_position_offset_roundtrip (p q r : Position) (o : Offset)
    (hpx : i64Min ≤ p.x ∧ p.x ≤ i64Max) (hpy : i64Min ≤ p.y ∧ p.y ≤ i64Max) :
    (Position.addOffset p o = some r → Position.subOffset r o = some p) ∧
    (∀ rel, Position.relative_to p q = some rel →
      rel = ⟨p.x - q.x, p.y - q.y⟩ ∧
      Position.addOffset rel (Offset.new q.x q.y) = some p) := by
  obtain ⟨px, py⟩ := p
  simp only at hpx hpy
  constructor
  · intro h
    rw [addOffset_eq_some] at h
    obtain ⟨hr, _, _, _, _⟩ := h
    subst hr
    rw [subOffset_eq_some]
    refine ⟨by simp, ?_, ?_, ?_, ?_⟩ <;> simp <;> omega
  · intro rel h
    simp only [Position.relative_to, bind, Option.bind_eq_some, i64neg, i64chk_eq_some] at h
    obtain ⟨nx, ⟨hnx, hnx1, hnx2⟩, ny, ⟨hny, hny1, hny2⟩, hadd⟩ := h
    subst hnx; subst hny
    rw [addOffset_eq_some] at hadd
    obtain ⟨hrel, ha1, ha2, ha3, ha4⟩ := hadd
    simp only at hrel ha1 ha2 ha3 ha4
    have hrel2 : rel = Position.mk (px - q.x) (py - q.y) := by
      rw [hrel]
      simp [Position.mk.injEq]
      constructor <;> omega
    subst hrel2
    refine ⟨rfl, ?_⟩
    rw [addOffset_eq_some]
    refine ⟨?_, ?_, ?_, ?_, ?_⟩ <;> simp [Offset.new] <;> omega

/-- Witness for claim C6 at `p = (1,2)`, `q = (3,4)`, `r = (6,8)`, `o = (5,6)`. -/
theorem c6_position_offset_roundtrip_witness :
    ((i64Min ≤ (1 : Int) ∧ (1 : Int) ≤ i64Max) ∧
     (i64Min ≤ (2 : Int) ∧ (2 : Int) ≤ i64Max)) ∧
    ((Position.addOffset ⟨1, 2⟩ ⟨5, 6⟩ = some ⟨6, 8⟩ →
        Position.subOffset ⟨6, 8⟩ ⟨5, 6⟩ = some ⟨1, 2⟩) ∧
     (∀ rel, Position.relative_to ⟨1, 2⟩ ⟨3, 4⟩ = some rel →
        rel = ⟨1 - 3, 2 - 4⟩ ∧
        Position.addOffset rel (Offset.new 3 4) = some ⟨1, 2⟩)) :=
  ⟨⟨⟨by decide, by decide⟩, ⟨by decide, by decide⟩⟩,
   c6_position_offset_roundtrip ⟨1, 2⟩ ⟨3, 4⟩ ⟨6, 8⟩ ⟨5, 6⟩
     ⟨by decide, by decide⟩ ⟨by decide, by decide⟩⟩

/-- Claim C7: for every level `L ≤ 63`, `side_len L` succeeds and equals
`2^L` exactly, which fits in a `u64` (no overflow), including at
`MAX_LEVEL = 63`. -/
theorem c7_side_len_exact_pow (l : Nat) (h : l ≤ MAX_LEVEL) :
    Level.side_len l = some (2 ^ l) ∧ 2 ^ l < 2 ^ 64 := by
  rw [MAX_LEVEL] at h
  interval_cases l <;> decide

/-- Witness for claim C7 at the concrete level 63. -/
theorem c7_side_len_exact_pow_witness :
    (63 : Nat) ≤ MAX_LEVEL ∧
    (Level.side_len 63 = some (2 ^ 63) ∧ 2 ^ 63 < 2 ^ 64) :=
  ⟨by decide, c7_side_len_exact_pow 63 (by decide)⟩

/-- Claim C8: for every valid level `2 ≤ L ≤ 63` and every quadrant `q`,
the position `quadrant_center L q` returns is itself classified by
`Position::quadrant` as lying in quadrant `q`. -/
theorem c8_quadrant_center_lies_in_quadrant (l : Nat) (q : Quadrant)
    (h2 : 2 ≤ l) (h63 : l ≤ MAX_LEVEL) (p : Position)
    (hp : Level.quadrant_center l q = some p) : p.quadrant = q := by
  rw [MAX_LEVEL] at h63
  rw [quadrant_center_eq l h2 h63 q] at hp
  have hd : (0 : Int) < 2 ^ (l - 2) := by positivity
  have hpos : ¬((2 : Int) ^ (l - 2) < 0) := not_lt.mpr hd.le
  have hneg : (-(2 : Int) ^ (l - 2)) < 0 := neg_lt_zero.mpr hd
  cases q <;> simp only [Option.some.injEq] at hp <;> subst hp <;>
    simp [Position.quadrant, hpos, hneg]

/-- Witness for claim C8 at level 2 and the north-west quadrant. -/
theorem c8_quadrant_center_lies_in_quadrant_witness :
    (2 ≤ 2 ∧ (2 : Nat) ≤ MAX_LEVEL ∧
      Level.quadrant_center 2 Quadrant.NorthWest = some ⟨-1, -1⟩) ∧
    Position.quadrant ⟨-1, -1⟩ = Quadrant.NorthWest :=
  ⟨⟨by decide, by decide, by decide⟩,
   c8_quadrant_center_lies_in_quadrant 2 Quadrant.NorthWest (by decide) (by decide)
     ⟨-1, -1⟩ (by decide)⟩

/-- Claim C9: `Position::quadrant` partitions the plane by coordinate sign:
negative `y` is north, negative `x` is west, and the zero boundary belongs
to the south/east side, so the origin is classified `SouthEast`. -/
theorem c9_quadrant_partition :
    (∀ p : Position,
      (p.quadrant = Quadrant.NorthWest ↔ p.x < 0 ∧ p.y < 0) ∧
      (p.quadrant = Quadrant.NorthEast ↔ 0 ≤ p.x ∧ p.y < 0) ∧
      (p.quadrant = Quadrant.SouthWest ↔ p.x < 0 ∧ 0 ≤ p.y) ∧
      (p.quadrant = Quadrant.SouthEast ↔ 0 ≤ p.x ∧ 0 ≤ p.y)) ∧
    Position.quadrant ⟨0, 0⟩ = Quadrant.SouthEast := by
  refine ⟨fun p => ?_, by decide⟩
  unfold Position.quadrant
  split_ifs <;> simp_all

/-- Claim C10: at `LEAF_LEVEL` (level 0) the level-minus-one `u8`
subtraction inside `min_coord`/`max_coord` underflows, so `min_coord`,
`max_coord`, `coord_range`, and hence `in_bounds` at any position, all fail
instead of returning single-cell bounds. -/
theorem c10_level_zero_bounds_underflow :
    Level.min_coord LEAF_LEVEL = none ∧ Level.max_coord LEAF_LEVEL = none ∧
    Level.coord_range LEAF_LEVEL = none ∧
    ∀ p : Position, Position.in_bounds p LEAF_LEVEL = none :=
  ⟨rfl, rfl, rfl, fun _ => rfl⟩

end HasherLife
